import Mathlib

/-!
# GenesisEngine — verification of the timed command interpreter

Shallow embedding of the core playback engine of this repository
(`GenesisEngine.cpp`, `VGMParser.cpp`, `GEPPlayer.cpp`, `PCMDataBank.cpp`,
`sources/ProgmemSource.h`, `sources/VGMSource.h`).

Machine integers are modelled as `Nat` with explicit reductions modulo
`2^8`, `2^16`, `2^32` where the C++ code performs fixed-width arithmetic.
Raw flash/ROM memory (`pgm_read_byte` over `const uint8_t*`) is modelled
as a total function `Nat → Nat`; every read site applies `% 256`, since a
hardware byte read always yields a byte.  Calls on the `GenesisBoard`
(the `ChipBus`) are modelled as an ordered event trace.  `while` loops
whose termination is not structural take an explicit fuel argument and
return `Option`; `none` represents running out of fuel.
-/

namespace GenesisVerif

/-- Byte value truncation (`uint8_t`). -/
def u8 (n : Nat) : Nat := n % 256

/-- 16-bit truncation (`uint16_t`). -/
def u16 (n : Nat) : Nat := n % 65536

/-- 32-bit truncation (`uint32_t`). -/
def u32 (n : Nat) : Nat := n % 4294967296

/-- 32-bit wrap-around subtraction `a - b` (C unsigned arithmetic). -/
def sub32 (a b : Nat) : Nat := (a % 4294967296 + 4294967296 - b % 4294967296) % 4294967296

/-- One observable call on the `GenesisBoard` / `ChipBus`, plus the
optional "unsupported chip" client callback of `VGMParser`. -/
inductive Ev where
  | writeYM : Nat → Nat → Nat → Ev
  | writePSG : Nat → Ev
  | writeDAC : Nat → Ev
  | muteAll : Ev
  | reset : Ev
  | cbUnsupported : Nat → Nat → Nat → Ev
deriving DecidableEq, Repr

/-! ## PCMDataBank (`PCMDataBank.h` / `PCMDataBank.cpp`)

The buffer `dataBank_` is modelled as `Option (List Nat)`: `none` is the
null pointer, `some buf` holds the stored bytes.  Memory-allocation
success (`tryAllocate`, which probes PSRAM and free heap) is not
deterministic from the program text, so `loadDataBlock` takes an
allocation oracle `alloc : Nat → Bool` deciding whether an allocation of
a given size succeeds. -/

/-- `PCMDataBank` state.  The informational `usingPSRAM_` flag (only
ever printed) is omitted; the PSRAM/RAM distinction lives in the
allocation oracle. -/
structure Bank where
  dataBank : Option (List Nat)
  allocatedSize : Nat
  dataSize : Nat
  originalSize : Nat
  position : Nat
  downsampleRatio : Nat
  readCount : Nat
  dacDisabled : Bool
deriving Repr, DecidableEq

/-- `PCMDataBank` constructor / `clear()` result state. -/
def Bank.init : Bank :=
  { dataBank := none, allocatedSize := 0, dataSize := 0, originalSize := 0,
    position := 0, downsampleRatio := 1, readCount := 0, dacDisabled := false }

/-- `PCMDataBank::hasData`. -/
def Bank.hasData (b : Bank) : Bool := b.dataSize > 0

/-- `PCMDataBank::readByte`. -/
def Bank.readByte (b : Bank) : Nat × Bank :=
  match b.dataBank with
  | none => (0x80, b)
  | some buf =>
    if b.position ≥ b.dataSize then (0x80, b)
    else
      let sample := buf.getD b.position 0
      let rc := u8 (b.readCount + 1)
      if rc ≥ b.downsampleRatio then
        (sample, { b with readCount := 0, position := b.position + 1 })
      else
        (sample, { b with readCount := rc })

/-- `PCMDataBank::seek`. -/
def Bank.seek (b : Bank) (pos : Nat) : Bank :=
  let storedPos := pos / b.downsampleRatio
  if storedPos < b.dataSize then
    { b with position := storedPos, readCount := 0 }
  else
    { b with position := b.dataSize, readCount := 0 }

/-! ## ProgmemSource (`sources/ProgmemSource.h`, helpers from `sources/VGMSource.h`)

The flash array is a total function `data : Nat → Nat`; a byte read
applies `% 256`. -/

structure Src where
  data : Nat → Nat
  length : Nat
  pos : Nat
  dataStartOffset : Nat
  isOpen : Bool

/-- `ProgmemSource::read` — `-1` (no data) is `none`. -/
def Src.read (s : Src) : Option Nat × Src :=
  if s.isOpen = false ∨ s.pos ≥ s.length then (none, s)
  else (some (u8 (s.data s.pos)), { s with pos := s.pos + 1 })

/-- A `read()` whose `int` result is assigned to a `uint8_t` (as in
`VGMSource::readUInt16/readUInt32` and `VGMParser`): `-1` truncates
to `0xFF`. -/
def Src.readB (s : Src) : Nat × Src :=
  match s.read with
  | (none, s') => (0xFF, s')
  | (some b, s') => (b, s')

/-- `ProgmemSource::available`. -/
def Src.available (s : Src) : Bool := s.isOpen && decide (s.pos < s.length)

/-- `ProgmemSource::seek` (positions relative to `dataStartOffset_`). -/
def Src.seek (s : Src) (position : Nat) : Bool × Src :=
  let absolutePos := u32 (s.dataStartOffset + position)
  if absolutePos > s.length then (false, s)
  else (true, { s with pos := absolutePos })

/-- `VGMSource::skip` for a seekable source: `seek(position() + count)`. -/
def Src.skip (s : Src) (count : Nat) : Src :=
  (s.seek (u32 (s.pos + count))).2

/-- `VGMSource::readUInt16` (little-endian). -/
def Src.readUInt16 (s : Src) : Nat × Src :=
  let (lo, s1) := s.readB
  let (hi, s2) := s1.readB
  (lo ||| (hi <<< 8), s2)

/-- `VGMSource::readUInt32` (little-endian). -/
def Src.readUInt32 (s : Src) : Nat × Src :=
  let (b0, s1) := s.readB
  let (b1, s2) := s1.readB
  let (b2, s3) := s2.readB
  let (b3, s4) := s3.readB
  (b0 ||| (b1 <<< 8) ||| (b2 <<< 16) ||| (b3 <<< 24), s4)

/-- Read-and-discard `n` bytes via the data-block read callback
(`VGMParser::handleDataBlock` skip loop, `PCMDataBank::loadDataBlock`
drain loops). -/
def Src.drain (s : Src) : Nat → Src
  | 0 => s
  | n + 1 => (s.read).2.drain n

/-- The storing read loop of `PCMDataBank::loadDataBlock`: reads up to
`remaining` bytes (breaking early when the source is exhausted), storing
byte `i` iff `i % ratio == 0` and the buffer is not full. -/
def loadLoop (ratio cap : Nat) : Src → Nat → Nat → List Nat → List Nat × Src
  | src, _, 0, acc => (acc, src)
  | src, i, r + 1, acc =>
    match src.read with
    | (none, src') => (acc, src')
    | (some byte, src') =>
      if i % ratio == 0 && decide (acc.length < cap) then
        loadLoop ratio cap src' (i + 1) r (acc ++ [byte])
      else
        loadLoop ratio cap src' (i + 1) r acc

/-- The allocation-attempt loop of `PCMDataBank::loadDataBlock` over the
`(trySize, ratio)` pairs.  `alloc size = none` means the allocation
failed; `some psram` records whether the buffer came from PSRAM. -/
def Bank.tryAttempts (alloc : Nat → Option Bool) (b : Bank) (originalSize : Nat)
    (src : Src) : List (Nat × Nat) → Bool × Bank × Src
  | [] =>
    -- all allocation attempts failed: disable DAC, drain the block
    (false, { b with dacDisabled := true }, src.drain originalSize)
  | (trySize, ratio) :: rest =>
    if trySize = 0 then Bank.tryAttempts alloc b originalSize src rest
    else
      match alloc trySize with
      | none => Bank.tryAttempts alloc b originalSize src rest
      | some _ =>
        let (stored, src') := loadLoop ratio trySize src 0 originalSize []
        (true,
         { b with dataBank := some stored, allocatedSize := trySize,
                  downsampleRatio := ratio, dacDisabled := false,
                  dataSize := stored.length, position := 0 },
         src')

/-- `PCMDataBank::loadDataBlock`, with the source as the read callback. -/
def Bank.loadDataBlock (alloc : Nat → Option Bool) (b : Bank)
    (originalSize : Nat) (src : Src) : Bool × Bank × Src :=
  if originalSize = 0 then (true, b, src)
  else
    let b1 := { b with originalSize := originalSize }
    if b.dataBank.isSome && b.hasData then
      (true, b1, src.drain originalSize)
    else
      Bank.tryAttempts alloc b1 originalSize src
        [(originalSize, 1), (originalSize / 2, 2), (originalSize / 4, 4)]

/-! ## VGMParser (`VGMParser.h` / `VGMParser.cpp`)

`loopOffsetInData_` and `psgAttenuation_` are omitted: no embedded
function ever assigns or reads them (in the source, `loopOffsetInData_`
is in fact never assigned).  The optional unsupported-chip callback is
modelled by the flag `hasCallback`; an invocation appears in the trace
as `Ev.cbUnsupported`. -/

structure Parser where
  version : Nat
  totalSamples : Nat
  loopSamples : Nat
  dataOffset : Nat
  loopOffset : Nat
  hasLoop : Bool
  hasYM2612 : Bool
  hasSN76489 : Bool
  finished : Bool
  loopCount : Nat
  bank : Bank
  hasCallback : Bool

def VGM_MAGIC : Nat := 0x206D6756

/-! `VGMParser::parseHeader` reads the header fields in a fixed
sequence of `seek`/`readUInt32` pairs.  All reads are pure, so each
step is a named function of the original source; `.1` is the value
read, `.2` the source state afterwards, exactly in the order the code
performs them. -/

/-- Source state after `seek(0)`. -/
def vgmSrc0 (src : Src) : Src := (src.seek 0).2

/-- The magic word read at offset 0. -/
def vgmMagic (src : Src) : Nat := ((vgmSrc0 src).readUInt32).1

def vgmSrcMagic (src : Src) : Src := ((vgmSrc0 src).readUInt32).2

/-- `version_` read at `VGM_OFF_VERSION = 0x08`. -/
def vgmVersion (src : Src) : Nat := ((((vgmSrcMagic src).seek 0x08).2).readUInt32).1

def vgmSrcV (src : Src) : Src := ((((vgmSrcMagic src).seek 0x08).2).readUInt32).2

/-- SN76489 clock read at `VGM_OFF_SN76489 = 0x0C`. -/
def vgmSNClock (src : Src) : Nat := ((((vgmSrcV src).seek 0x0C).2).readUInt32).1

def vgmSrcSN (src : Src) : Src := ((((vgmSrcV src).seek 0x0C).2).readUInt32).2

/-- `totalSamples_` read at `VGM_OFF_SAMPLES = 0x18`. -/
def vgmTotalSamples (src : Src) : Nat := ((((vgmSrcSN src).seek 0x18).2).readUInt32).1

def vgmSrcTS (src : Src) : Src := ((((vgmSrcSN src).seek 0x18).2).readUInt32).2

/-- The relative loop offset read at `VGM_OFF_LOOP = 0x1C`. -/
def vgmLoopRel (src : Src) : Nat := ((((vgmSrcTS src).seek 0x1C).2).readUInt32).1

def vgmSrcLR (src : Src) : Src := ((((vgmSrcTS src).seek 0x1C).2).readUInt32).2

/-- `loopSamples_` read at `VGM_OFF_LOOP_SAMP = 0x20`. -/
def vgmLoopSamples (src : Src) : Nat := ((((vgmSrcLR src).seek 0x20).2).readUInt32).1

def vgmSrcLS (src : Src) : Src := ((((vgmSrcLR src).seek 0x20).2).readUInt32).2

/-- `hasYM2612_`: the YM2612 clock at `VGM_OFF_YM2612 = 0x2C` is read
only for version ≥ 1.10; otherwise the field keeps its previous value. -/
def vgmHasYM (p : Parser) (src : Src) : Bool :=
  if vgmVersion src ≥ 0x110 then
    decide (((((vgmSrcLS src).seek 0x2C).2).readUInt32).1 ≠ 0)
  else p.hasYM2612

def vgmSrcYM (src : Src) : Src :=
  if vgmVersion src ≥ 0x110 then ((((vgmSrcLS src).seek 0x2C).2).readUInt32).2
  else vgmSrcLS src

/-- The relative data offset read at `VGM_OFF_DATA = 0x34` (v1.50+). -/
def vgmDataRel (src : Src) : Nat := ((((vgmSrcYM src).seek 0x34).2).readUInt32).1

/-- `dataOffset_`: `0x34 + rel` when v1.50+ and `rel ≠ 0`, else the
`0x40` default.  The code performs no `≥ 0x40` check. -/
def vgmDataOffset (src : Src) : Nat :=
  if vgmVersion src ≥ 0x150 then
    if vgmDataRel src ≠ 0 then u32 (0x34 + vgmDataRel src) else 0x40
  else 0x40

def vgmSrcDO (src : Src) : Src :=
  if vgmVersion src ≥ 0x150 then ((((vgmSrcYM src).seek 0x34).2).readUInt32).2
  else vgmSrcYM src

/-- `VGMParser::parseHeader`.  Returns `(success, parser, source)`. -/
def Parser.parseHeader (p : Parser) (src : Src) : Bool × Parser × Src :=
  if src.isOpen = false then (false, p, src)
  else if (src.seek 0).1 = false then (false, p, (src.seek 0).2)
  else if vgmMagic src ≠ VGM_MAGIC then (false, p, vgmSrcMagic src)
  else
    let p' := { p with version := vgmVersion src,
                       hasSN76489 := decide (vgmSNClock src ≠ 0),
                       totalSamples := vgmTotalSamples src,
                       hasLoop := decide (vgmLoopRel src ≠ 0),
                       loopOffset := if vgmLoopRel src ≠ 0 then
                                       u32 (0x1C + vgmLoopRel src)
                                     else p.loopOffset,
                       loopSamples := vgmLoopSamples src,
                       hasYM2612 := vgmHasYM p src,
                       dataOffset := vgmDataOffset src }
    if p'.hasYM2612 = false ∧ p'.hasSN76489 = false then (false, p', vgmSrcDO src)
    else (true, { p' with finished := false },
          ((vgmSrcDO src).seek (vgmDataOffset src)).2)

/-- `VGMParser::skipCommand` (unknown-opcode length table). -/
def Parser.skipCmd (cmd : Nat) (src : Src) : Src :=
  if 0x30 ≤ cmd ∧ cmd ≤ 0x3F then (src.read).2
  else if 0x40 ≤ cmd ∧ cmd ≤ 0x4E then ((src.read).2.read).2
  else if cmd = 0x4F then (src.read).2
  else if 0x51 ≤ cmd ∧ cmd ≤ 0x5F then ((src.read).2.read).2
  else if cmd = 0x90 then src.skip 4
  else if cmd = 0x91 then src.skip 4
  else if cmd = 0x92 then src.skip 5
  else if cmd = 0x93 then src.skip 10
  else if cmd = 0x94 then src.skip 1
  else if cmd = 0x95 then src.skip 4
  else if 0xA0 ≤ cmd ∧ cmd ≤ 0xBF then ((src.read).2.read).2
  else if 0xC0 ≤ cmd ∧ cmd ≤ 0xDF then src.skip 3
  else if 0xE1 ≤ cmd ∧ cmd ≤ 0xFF then src.skip 4
  else src

/-- `VGMParser::handleDataBlock`. -/
def Parser.handleDataBlock (alloc : Nat → Option Bool) (p : Parser) (src : Src) :
    Parser × Src :=
  let (marker, s1) := src.readB
  if marker ≠ 0x66 then (p, s1)
  else
    let (dataType, s2) := s1.readB
    let (dataSize, s3) := s2.readUInt32
    if dataType = 0x00 then
      let (_, bank', s4) := Bank.loadDataBlock alloc p.bank dataSize s3
      ({ p with bank := bank' }, s4)
    else
      (p, s3.drain dataSize)

/-- `VGMParser::processCommand`.  Returns the `int32_t` wait result
(`-1` = end of data), the updated parser and source, and the emitted
board/callback events in order. -/
def Parser.processCommand (alloc : Nat → Option Bool) (p : Parser) (src : Src) :
    Int × Parser × Src × List Ev :=
  match src.read with
  | (none, s0) => (-1, p, s0, [])
  | (some cmd, s0) =>
    if cmd = 0x50 then
      let (val, s1) := s0.readB
      (0, p, s1, [Ev.writePSG val])
    else if cmd = 0x52 then
      let (reg, s1) := s0.readB
      let (val, s2) := s1.readB
      (0, p, s2, [Ev.writeYM 0 reg val])
    else if cmd = 0x53 then
      let (reg, s1) := s0.readB
      let (val, s2) := s1.readB
      (0, p, s2, [Ev.writeYM 1 reg val])
    else if cmd = 0x61 then
      let (samples, s1) := s0.readUInt16
      ((samples : Int), p, s1, [])
    else if cmd = 0x62 then (735, p, s0, [])
    else if cmd = 0x63 then (882, p, s0, [])
    else if cmd = 0x66 then (-1, p, s0, [])
    else if cmd = 0x67 then
      let (p', s1) := Parser.handleDataBlock alloc p s0
      (0, p', s1, [])
    else if 0x70 ≤ cmd ∧ cmd ≤ 0x7F then
      (((cmd &&& 0x0F) + 1 : Nat), p, s0, [])
    else if 0x80 ≤ cmd ∧ cmd ≤ 0x8F then
      if p.bank.hasData then
        let (v, bank') := p.bank.readByte
        ((cmd &&& 0x0F : Nat), { p with bank := bank' }, s0, [Ev.writeDAC v])
      else
        ((cmd &&& 0x0F : Nat), p, s0, [])
    else if cmd = 0xE0 then
      let (seekPos, s1) := s0.readUInt32
      (0, { p with bank := p.bank.seek seekPos }, s1, [])
    else if 0x90 ≤ cmd ∧ cmd ≤ 0x95 then
      (0, p, Parser.skipCmd cmd s0, [])
    else if cmd = 0x51 ∨ cmd = 0x54 ∨ cmd = 0x55 then
      let (reg, s1) := s0.readB
      let (val, s2) := s1.readB
      (0, p, s2, if p.hasCallback then [Ev.cbUnsupported cmd reg val] else [])
    else
      (0, p, Parser.skipCmd cmd s0, [])

/-- The `while (source_->available())` loop of
`VGMParser::processUntilWait`, with fuel bounding the number of
commands processed. -/
def Parser.puwLoop (alloc : Nat → Option Bool) :
    Nat → Parser → Src → Option (Nat × Parser × Src × List Ev)
  | fuel, p, src =>
    if src.available = false then some (0, { p with finished := true }, src, [])
    else
      match fuel with
      | 0 => none
      | fuel + 1 =>
        let (w, p', src', tr) := Parser.processCommand alloc p src
        if w < 0 then some (0, { p' with finished := true }, src', tr)
        else if w > 0 then some (w.toNat, p', src', tr)
        else
          match Parser.puwLoop alloc fuel p' src' with
          | none => none
          | some (res, p2, src2, tr2) => some (res, p2, src2, tr ++ tr2)

/-- `VGMParser::processUntilWait`. -/
def Parser.processUntilWait (alloc : Nat → Option Bool) (fuel : Nat)
    (p : Parser) (src : Src) : Option (Nat × Parser × Src × List Ev) :=
  if p.finished then some (0, p, src, [])
  else Parser.puwLoop alloc fuel p src

/-- `VGMParser::seekToLoop` (a `ProgmemSource` always `canSeek`). -/
def Parser.seekToLoop (p : Parser) (src : Src) : Bool × Parser × Src :=
  if p.hasLoop = false then (false, p, src)
  else
    let (ok, src') := src.seek p.loopOffset
    if ok then (true, { p with finished := false }, src')
    else (false, p, src')

/-! ## GenesisEngine (`GenesisEngine.h` / `GenesisEngine.cpp`) -/

/-- Player state machine (`GenesisEngineState`, also `GEPState`). -/
inductive PState where
  | stopped
  | playing
  | paused
  | finished
deriving DecidableEq, Repr

structure Eng where
  parser : Parser
  src : Src
  state : PState
  looping : Bool
  currentSample : Nat
  waitSamples : Nat
  playbackStartTime : Nat
  samplesPlayed : Nat

/-- `GenesisEngine::processCommands` (the given fuel bounds each inner
`processUntilWait` loop). -/
def Eng.processCommands (alloc : Nat → Option Bool) (fuel : Nat) (e : Eng) :
    Option (Eng × List Ev) :=
  match Parser.processUntilWait alloc fuel e.parser e.src with
  | none => none
  | some (w, p1, s1, tr1) =>
    let e1 := { e with parser := p1, src := s1, waitSamples := w }
    if p1.finished then
      if e1.looping && p1.hasLoop then
        let (ok, p2, s2) := p1.seekToLoop s1
        if ok then
          match Parser.processUntilWait alloc fuel p2 s2 with
          | none => none
          | some (w2, p3, s3, tr2) =>
            some ({ e1 with parser := p3, src := s3, waitSamples := w2 }, tr1 ++ tr2)
        else
          some ({ e1 with parser := p2, src := s2, state := PState.finished },
                tr1 ++ [Ev.reset])
      else
        some ({ e1 with state := PState.finished }, tr1 ++ [Ev.reset])
    else
      some (e1, tr1)

/-- The µs → 44100 Hz sample conversion exactly as computed by the code,
with the `uint32_t` truncation of every arithmetic step made explicit. -/
def targetSamples32 (elapsed : Nat) : Nat :=
  u32 (u32 (u32 (elapsed / 10000) * 441) + u32 (u32 (elapsed % 10000) * 441) / 10000)

/-- The same conversion as exact (unbounded) integer arithmetic. -/
def targetSamplesSpec (elapsed : Nat) : Nat :=
  (elapsed / 10000) * 441 + ((elapsed % 10000) * 441) / 10000

/-- The wait-credit consumption step at the head of the
`while (samplesPlayed_ < targetSamples)` loop of
`GenesisEngine::update`: when credit is pending, advance by
`min(target − samplesPlayed, waitSamples)`. -/
def Eng.consumeWait (e : Eng) (target : Nat) : Eng :=
  if e.waitSamples > 0 then
    { e with waitSamples := e.waitSamples - min (target - e.samplesPlayed) e.waitSamples,
             samplesPlayed := e.samplesPlayed + min (target - e.samplesPlayed) e.waitSamples,
             currentSample := u32 (e.currentSample + min (target - e.samplesPlayed) e.waitSamples) }
  else e

/-- The `while (samplesPlayed_ < targetSamples)` loop of
`GenesisEngine::update`; fuel bounds the number of iterations. -/
def Eng.updLoop (alloc : Nat → Option Bool) :
    Nat → Eng → Nat → Option (Eng × List Ev)
  | 0, e, target =>
    if e.samplesPlayed < target then none else some (e, [])
  | fuel + 1, e, target =>
    if e.samplesPlayed < target then
      if (Eng.consumeWait e target).waitSamples > 0 then
        some (Eng.consumeWait e target, [])
      else
        match Eng.processCommands alloc fuel (Eng.consumeWait e target) with
        | none => none
        | some (e2, tr) =>
          if e2.state ≠ PState.playing then some (e2, tr)
          else
            match Eng.updLoop alloc fuel e2 target with
            | none => none
            | some (e3, tr2) => some (e3, tr ++ tr2)
    else some (e, [])

/-- `GenesisEngine::update` with the current `micros()` value passed in
as `now`. -/
def Eng.update (alloc : Nat → Option Bool) (fuel : Nat) (e : Eng) (now : Nat) :
    Option (Eng × List Ev) :=
  if e.state ≠ PState.playing then some (e, [])
  else if sub32 now e.playbackStartTime > 0x80000000 then
    Eng.updLoop alloc fuel { e with playbackStartTime := u32 now } (targetSamples32 0)
  else
    Eng.updLoop alloc fuel e (targetSamples32 (sub32 now e.playbackStartTime))

/-! ## GEPPlayer (`GEPPlayer.h` / `GEPPlayer.cpp`)

PROGMEM pointers (`dict_`, `pcm_`, `samples_`, the chunk table) are
modelled as total byte-memory functions; nullable ones as `Option`.
`currentPos_`, `pcmPos_`, `sampleEnd_`, `currentDataSize_` are
`uint16_t` and wrap modulo `2^16`. -/

structure GEP where
  flags : Nat
  dictCount : Nat
  totalSamples : Nat
  loopChunk : Nat
  loopOffset : Nat
  dict : Nat → Nat
  pcm : Option (Nat → Nat)
  samples : Option (Nat → Nat)
  sampleCount : Nat
  chunks : Option (Nat → Nat → Nat)
  chunkSizes : Nat → Nat
  chunkCount : Nat
  currentChunk : Nat
  currentPos : Nat
  currentData : Nat → Nat
  currentDataSize : Nat
  pcmPos : Nat
  dpcmSample : Nat
  useDPCM : Bool
  samplePlaying : Bool
  sampleEnd : Nat
  sampleRate : Nat
  sampleWaitAccum : Nat
  sampleLastCheck : Nat
  state : PState
  looping : Bool
  currentSample : Nat
  waitSamples : Nat
  playbackStartTime : Nat
  samplesPlayed : Nat

/-- The fixed DPCM 4-bit delta step table (`DPCM_STEPS`). -/
def dpcmSteps (i : Nat) : Int :=
  [(-34 : Int), -21, -13, -8, -5, -3, -1, 0, 1, 3, 5, 8, 13, 21, 34, 55].getD i 0

/-- `GEPPlayer::readByte`. -/
def GEP.readByteG (s : GEP) : Nat × GEP :=
  (u8 (s.currentData s.currentPos), { s with currentPos := u16 (s.currentPos + 1) })

/-- `GEPPlayer::readWord` (little-endian). -/
def GEP.readWordG (s : GEP) : Nat × GEP :=
  let (lo, s1) := s.readByteG
  let (hi, s2) := s1.readByteG
  (lo ||| (hi <<< 8), s2)

/-- `GEPPlayer::readPCMSample`.  In the DPCM branch `pcmPos_ - 1` is
`uint16_t` arithmetic and may wrap. -/
def GEP.readPCMSample (s : GEP) : Nat × GEP :=
  match s.pcm with
  | none => (128, s)
  | some pcm =>
    if s.useDPCM then
      let nibbleIdx := u16 (s.pcmPos + 65535)
      let byteIdx := 1 + nibbleIdx / 2
      let nibbleInByte := nibbleIdx % 2
      let packed := u8 (pcm byteIdx)
      let deltaIdx := if nibbleInByte = 0 then packed >>> 4 else packed &&& 0x0F
      let newSample : Int := (s.dpcmSample : Int) + dpcmSteps deltaIdx
      let clamped : Int := if newSample < 0 then 0 else if newSample > 255 then 255 else newSample
      (clamped.toNat, { s with dpcmSample := clamped.toNat, pcmPos := u16 (s.pcmPos + 1) })
    else
      (u8 (pcm s.pcmPos), { s with pcmPos := u16 (s.pcmPos + 1) })

/-- The decode-forward loop of `GEPPlayer::seekPCM` (DPCM branch). -/
def GEP.seekLoop : GEP → Nat → GEP
  | s, 0 => s
  | s, n + 1 => GEP.seekLoop (s.readPCMSample).2 n

/-- `GEPPlayer::seekPCM`.  With a null `pcm_` the DPCM branch of the
source reads unspecified memory at address 0 (`pgm_read_byte(&pcm_[0])`);
that read is modelled as byte 0 and never exercised by any claim. -/
def GEP.seekPCM (s : GEP) (pos : Nat) : GEP :=
  if s.useDPCM then
    let s1 := { s with dpcmSample := (match s.pcm with
                                      | some pcm => u8 (pcm 0)
                                      | none => 0),
                       pcmPos := 1 }
    GEP.seekLoop s1 pos
  else
    { s with pcmPos := u16 pos }

/-- `GEPPlayer::writeDictEntry` (emits one YM write). -/
def GEP.writeDictEntry (s : GEP) (index : Nat) : Ev :=
  let offset := index * 3
  Ev.writeYM (u8 (s.dict offset)) (u8 (s.dict (offset + 1))) (u8 (s.dict (offset + 2)))

/-- `GEPPlayer::writeKeyOnOff` (emits one YM reg `0x28` write). -/
def writeKeyOnOff (code : Nat) : Ev :=
  let channel := code % 6
  let keyOn := code ≥ 6
  let chBits := if channel < 3 then channel else channel + 1
  Ev.writeYM 0 0x28 (chBits ||| (if keyOn then 0xF0 else 0x00))

/-- `GEPPlayer::triggerSample`. -/
def GEP.triggerSample (s : GEP) (sampleId rate : Nat) : GEP :=
  if s.samples.isNone ∨ sampleId ≥ s.sampleCount ∨ s.pcm.isNone then s
  else
    match s.samples with
    | none => s
    | some smp =>
      let offset := sampleId * 5
      let start := u8 (smp offset) ||| (u8 (smp (offset + 1)) <<< 8)
      let length := u8 (smp (offset + 2)) ||| (u8 (smp (offset + 3)) <<< 8)
      { s with pcmPos := start,
               sampleEnd := u16 (start + length),
               sampleRate := if rate > 0 then rate else 1,
               sampleWaitAccum := 0,
               samplePlaying := true }

/-- `GEPPlayer::loadChunk`.  The C++ parameter is `uint8_t`, so every
call site's argument is narrowed modulo 256 on entry. -/
def GEP.loadChunk (s : GEP) (chunkIndexArg : Nat) : Bool × GEP :=
  let chunkIndex := u8 chunkIndexArg
  if chunkIndex ≥ s.chunkCount then (false, s)
  else
    let s1 := { s with currentChunk := chunkIndex, currentPos := 0 }
    match s.chunks with
    | some cf =>
      (true, { s1 with currentData := cf chunkIndex,
                       currentDataSize := u16 (s.chunkSizes chunkIndex) })
    | none => (true, s1)

/-- The PSG-multi loop of `GEPPlayer::processCommand` (`0x80–0x8F`):
read `n` bytes, emit each as a PSG write. -/
def GEP.psgMultiLoop : GEP → Nat → GEP × List Ev
  | s, 0 => (s, [])
  | s, n + 1 =>
    let (v, s1) := s.readByteG
    let (s2, evs) := GEP.psgMultiLoop s1 n
    (s2, Ev.writePSG v :: evs)

/-- The DAC-block loop of `GEPPlayer::processCommand` (`0xB8`): emit
`n` PCM samples to the DAC. -/
def GEP.dacBlockLoop : GEP → Nat → GEP × List Ev
  | s, 0 => (s, [])
  | s, n + 1 =>
    let (v, s1) := s.readPCMSample
    let (s2, evs) := GEP.dacBlockLoop s1 n
    (s2, Ev.writeDAC v :: evs)

/-- The DAC-run loop of `GEPPlayer::processCommand` (`0xB9`):
`for (uint8_t i = 0; i < count; i += 2)` reads one packed nibble-pair
byte per iteration and emits one or (when `i + 1 < count`) two PCM
samples.  The loop index is a `uint8_t`, so `i += 2` wraps modulo 256;
as `i` stays even, a run with `count = 255` wraps `i` from 254 back to
0 and the loop never exits (`GEP.dacRunLoop_255_none`).  The fuel
bounds the iterations; a terminating run performs at most 128 of them
(the at most 128 even `uint8_t` values below `count`), so with fuel 128
the result is `none` exactly when the C++ loop never returns.  Returns
`some (totalWait, state, events)` on exit. -/
def GEP.dacRunLoop (count : Nat) : Nat → GEP → Nat → Option (Nat × GEP × List Ev)
  | 0, s, i => if i < count then none else some (0, s, [])
  | fuel + 1, s, i =>
    if i < count then
      if i + 1 < count then
        match GEP.dacRunLoop count fuel
            ((((s.readByteG).2).readPCMSample).2.readPCMSample).2 (u8 (i + 2)) with
        | none => none
        | some (rest, s4, evs) =>
          some ((((s.readByteG).1 >>> 4) &&& 0x0F) + ((s.readByteG).1 &&& 0x0F) + rest,
                s4,
                Ev.writeDAC (((s.readByteG).2).readPCMSample).1 ::
                  Ev.writeDAC ((((s.readByteG).2).readPCMSample).2.readPCMSample).1 :: evs)
      else
        match GEP.dacRunLoop count fuel
            (((s.readByteG).2).readPCMSample).2 (u8 (i + 2)) with
        | none => none
        | some (rest, s4, evs) =>
          some ((((s.readByteG).1 >>> 4) &&& 0x0F) + rest, s4,
                Ev.writeDAC (((s.readByteG).2).readPCMSample).1 :: evs)
    else some (0, s, [])

/-- `GEPPlayer::processCommand`.  Returns the `int32_t` wait result
(`-1` = end), the updated state, and the emitted events in order;
`none` stands for the one case in which the handler never returns (the
`0xB9` run with count 255, whose `uint8_t` loop index wraps). -/
def GEP.processCommand (s : GEP) : Option (Int × GEP × List Ev) :=
  if s.currentPos ≥ s.currentDataSize ∧ s.currentDataSize ≠ 0xFFFF then some (-1, s, [])
  else
    let (cmd, s0) := s.readByteG
    if cmd ≤ 0x3F then some (((cmd &&& 0x3F) + 1 : Nat), s0, [])
    else if 0x40 ≤ cmd ∧ cmd ≤ 0x7F then some (0, s0, [s0.writeDictEntry (cmd &&& 0x3F)])
    else if 0x80 ≤ cmd ∧ cmd ≤ 0x8F then
      let (s1, evs) := GEP.psgMultiLoop s0 ((cmd &&& 0x0F) + 1)
      some (0, s1, evs)
    else if 0x90 ≤ cmd ∧ cmd ≤ 0x9F then some ((((cmd &&& 0x0F) + 1) * 735 : Nat), s0, [])
    else if 0xA0 ≤ cmd ∧ cmd ≤ 0xAB then some (0, s0, [writeKeyOnOff (cmd &&& 0x0F)])
    else if cmd = 0xB0 then
      let (idx, s1) := s0.readByteG
      some (0, s1, [s1.writeDictEntry idx])
    else if cmd = 0xB1 then
      let (reg, s1) := s0.readByteG
      let (val, s2) := s1.readByteG
      some (0, s2, [Ev.writeYM 0 reg val])
    else if cmd = 0xB2 then
      let (reg, s1) := s0.readByteG
      let (val, s2) := s1.readByteG
      some (0, s2, [Ev.writeYM 1 reg val])
    else if cmd = 0xB3 then
      let (v, s1) := s0.readByteG
      some (0, s1, [Ev.writePSG v])
    else if cmd = 0xB4 then
      let (w, s1) := s0.readWordG
      some ((w : Nat), s1, [])
    else if cmd = 0xB5 then some (0, s0, [])
    else if cmd = 0xB6 then
      let (v, s1) := s0.readPCMSample
      some (0, s1, [Ev.writeDAC v])
    else if cmd = 0xB7 then
      let (w, s1) := s0.readWordG
      some (0, s1.seekPCM w, [])
    else if cmd = 0xB8 then
      let (count, s1) := s0.readByteG
      let (wait, s2) := s1.readByteG
      let (s3, evs) := GEP.dacBlockLoop s2 count
      some ((count * wait : Nat), s3, evs)
    else if cmd = 0xB9 then
      let (count, s1) := s0.readByteG
      match GEP.dacRunLoop count 128 s1 0 with
      | none => none
      | some (totalWait, s2, evs) => some ((totalWait : Nat), s2, evs)
    else if cmd = 0xFE then
      if s0.currentChunk + 1 < s0.chunkCount then
        let (_, s1) := s0.loadChunk (s0.currentChunk + 1)
        some (0, s1, [])
      else some (-1, s0, [])
    else if cmd = 0xFF then some (-1, s0, [])
    else if cmd = 0xBB then
      let (sampleId, s1) := s0.readByteG
      let (rate, s2) := s1.readByteG
      some (0, s2.triggerSample sampleId rate, [])
    else if cmd = 0xBC then
      let (pos, s1) := s0.readWordG
      let (rate, s2) := s1.readByteG
      some (0, { s2 with pcmPos := pos,
                         sampleRate := if rate > 0 then rate else 1,
                         sampleWaitAccum := 0,
                         samplePlaying := true }, [])
    else if 0xC0 ≤ cmd ∧ cmd ≤ 0xCF then
      let (v, s1) := s0.readPCMSample
      some ((cmd &&& 0x0F : Nat), s1, [Ev.writeDAC v])
    else if 0xD0 ≤ cmd ∧ cmd ≤ 0xDF then
      let (rate, s1) := s0.readByteG
      some (0, s1.triggerSample (cmd &&& 0x0F) rate, [])
    else some (0, s0, [])

/-- The `while (waitSamples_ == 0)` loop of
`GEPPlayer::processCommands`; fuel bounds the number of commands, and a
diverging command (`none`) propagates. -/
def GEP.pcLoop : Nat → GEP → Option (GEP × List Ev)
  | 0, _ => none
  | fuel + 1, s =>
    match s.processCommand with
    | none => none
    | some (result, s1, tr) =>
      if result < 0 then
        if s1.looping && decide (s1.loopChunk ≠ 0xFFFF) then
          let (ok, s2) := s1.loadChunk s1.loopChunk
          if ok then
            match GEP.pcLoop fuel { s2 with currentPos := s2.loopOffset } with
            | none => none
            | some (s3, tr2) => some (s3, tr ++ tr2)
          else some ({ s2 with state := PState.finished }, tr ++ [Ev.muteAll])
        else some ({ s1 with state := PState.finished }, tr ++ [Ev.muteAll])
      else
        let s2 := { s1 with waitSamples := result.toNat }
        if s2.waitSamples = 0 then
          match GEP.pcLoop fuel s2 with
          | none => none
          | some (s3, tr2) => some (s3, tr ++ tr2)
        else some (s2, tr)

/-- `GEPPlayer::processCommands` (clears `waitSamples_`, then loops). -/
def GEP.processCommands (fuel : Nat) (s : GEP) : Option (GEP × List Ev) :=
  GEP.pcLoop fuel { s with waitSamples := 0 }

/-- The wait-credit consumption step at the head of the catch-up loop
of `GEPPlayer::update`, including the sample-streaming block: when
credit is pending, accumulate the advance into `sampleWaitAccum_` and
emit ONE DAC byte once it reaches `sampleRate_` (resetting the
accumulator to zero, carrying no debt), then consume the credit. -/
def GEP.consumeWaitG (s : GEP) (target : Nat) : GEP × List Ev :=
  if s.waitSamples > 0 then
    let toAdvance := min (target - s.samplesPlayed) s.waitSamples
    let sd :=
      if s.samplePlaying then
        match s.pcm with
        | some pcm =>
          if u32 (s.sampleWaitAccum + toAdvance) ≥ s.sampleRate then
            ({ s with sampleWaitAccum := 0, pcmPos := u16 (s.pcmPos + 1) },
             [Ev.writeDAC (u8 (pcm s.pcmPos))])
          else ({ s with sampleWaitAccum := u32 (s.sampleWaitAccum + toAdvance) }, [])
        | none => (s, [])
      else (s, [])
    ({ sd.1 with waitSamples := sd.1.waitSamples - toAdvance,
                 samplesPlayed := sd.1.samplesPlayed + toAdvance,
                 currentSample := u32 (sd.1.currentSample + toAdvance) }, sd.2)
  else (s, [])

/-- The `while (samplesPlayed_ < targetSamples)` loop of
`GEPPlayer::update`; fuel bounds the number of iterations. -/
def GEP.updLoopG : Nat → GEP → Nat → Option (GEP × List Ev)
  | 0, s, target =>
    if s.samplesPlayed < target then none else some (s, [])
  | fuel + 1, s, target =>
    if s.samplesPlayed < target then
      if (GEP.consumeWaitG s target).1.waitSamples > 0 then
        some (GEP.consumeWaitG s target)
      else
        match GEP.processCommands fuel (GEP.consumeWaitG s target).1 with
        | none => none
        | some (s2, tr2) =>
          if s2.state ≠ PState.playing then
            some (s2, (GEP.consumeWaitG s target).2 ++ tr2)
          else
            match GEP.updLoopG fuel s2 target with
            | none => none
            | some (s3, tr3) =>
              some (s3, (GEP.consumeWaitG s target).2 ++ tr2 ++ tr3)
    else some (s, [])

/-- `GEPPlayer::update` with the current `micros()` value passed in as
`now`. -/
def GEP.update (fuel : Nat) (s : GEP) (now : Nat) : Option (GEP × List Ev) :=
  if s.state ≠ PState.playing then some (s, [])
  else if sub32 now s.playbackStartTime > 0x80000000 then
    GEP.updLoopG fuel { s with playbackStartTime := u32 now } (targetSamples32 0)
  else
    GEP.updLoopG fuel s (targetSamples32 (sub32 now s.playbackStartTime))

/-! ## Concrete baseline states used by witnesses and counterexamples -/

/-- The `GEPPlayer` constructor state. -/
def gep0 : GEP :=
  { flags := 0, dictCount := 0, totalSamples := 0, loopChunk := 0xFFFF,
    loopOffset := 0xFFFF, dict := fun _ => 0, pcm := none, samples := none,
    sampleCount := 0, chunks := none, chunkSizes := fun _ => 0, chunkCount := 1,
    currentChunk := 0, currentPos := 0, currentData := fun _ => 0,
    currentDataSize := 0, pcmPos := 0, dpcmSample := 128, useDPCM := false,
    samplePlaying := false, sampleEnd := 0, sampleRate := 0,
    sampleWaitAccum := 0, sampleLastCheck := 0, state := PState.stopped,
    looping := false, currentSample := 0, waitSamples := 0,
    playbackStartTime := 0, samplesPlayed := 0 }

/-- An allocation oracle under which every allocation fails. -/
def allocNone : Nat → Option Bool := fun _ => none

/-- An allocation oracle under which every allocation succeeds (RAM). -/
def allocAll : Nat → Option Bool := fun _ => some false

/-! ## C10 — sample trigger guard -/

/-- C10: every call to `GEPPlayer::triggerSample` with a null sample
table, a null PCM pool, or `sampleId ≥ sampleCount_` leaves the whole
player state (in particular `pcmPos_`, `sampleEnd_`, `sampleRate_`,
`sampleWaitAccum_`, `samplePlaying_`) unchanged; no DAC stream is
started, and `triggerSample` performs no board call. -/
theorem C10_trigger_noop (s : GEP) (id rate : Nat)
    (h : s.samples = none ∨ s.sampleCount ≤ id ∨ s.pcm = none) :
    s.triggerSample id rate = s := by
  unfold GEP.triggerSample
  rw [if_pos]
  rcases h with h | h | h
  · exact Or.inl (by simp [h])
  · exact Or.inr (Or.inl h)
  · exact Or.inr (Or.inr (by simp [h]))

/-- Witness for C10 at a concrete input: `gep0` has no sample table. -/
theorem C10_trigger_noop_witness :
    (gep0.samples = none ∨ gep0.sampleCount ≤ 3 ∨ gep0.pcm = none) ∧
      gep0.triggerSample 3 7 = gep0 :=
  ⟨Or.inl rfl, C10_trigger_noop gep0 3 7 (Or.inl rfl)⟩

/-! ## C4 — `seekToLoop` never increments the loop counter

`VGMParser.h` documents `seekToLoop` as "Increments the loop counter
each time it's called" and `loopCount_` as "Number of times
seekToLoop() has been called"; `getLoopCount` is the status query.  The
implementation in `VGMParser.cpp` never touches `loopCount_` (it is not
even initialised by the constructor), so after `n` successful loop-backs
the counter still holds its initial value instead of `n`. -/

/-- C4: `VGMParser::seekToLoop` leaves `loopCount_` unchanged on every
input — both on success and on failure — so the status query cannot
return the number of loop-backs. -/
theorem C4_seekToLoop_loopCount_unchanged (p : Parser) (src : Src) :
    ((p.seekToLoop src).2.1).loopCount = p.loopCount := by
  unfold Parser.seekToLoop
  split
  · rfl
  · dsimp only
    split <;> rfl

/-! ## C9 — PCM bank read semantics -/

/-- Iterated `PCMDataBank::readByte`: the list of `n` returned bytes and
the final bank state. -/
def Bank.readN : Bank → Nat → List Nat × Bank
  | b, 0 => ([], b)
  | b, n + 1 =>
    let (v, b1) := b.readByte
    let (vs, b2) := Bank.readN b1 n
    (v :: vs, b2)

/-- One-step equation for `Bank.readN`. -/
theorem Bank.readN_succ (b : Bank) (n : Nat) :
    Bank.readN b (n + 1) =
      ((b.readByte).1 :: (Bank.readN (b.readByte).2 n).1,
       (Bank.readN (b.readByte).2 n).2) := rfl

/-- `readByte` equation when the counter has not yet reached the ratio. -/
theorem Bank.readByte_keep (b : Bank) (buf : List Nat)
    (hbuf : b.dataBank = some buf) (hpos : b.position < b.dataSize)
    (hlt : b.readCount + 1 < b.downsampleRatio) (hle : b.downsampleRatio ≤ 255) :
    b.readByte = (buf.getD b.position 0, { b with readCount := b.readCount + 1 }) := by
  have hrc : u8 (b.readCount + 1) = b.readCount + 1 := by unfold u8; omega
  simp only [Bank.readByte, hbuf]
  rw [if_neg (by omega)]
  rw [hrc, if_neg (by omega)]

/-- `readByte` equation when the counter reaches the ratio: the cursor
advances and the counter resets. -/
theorem Bank.readByte_advance (b : Bank) (buf : List Nat)
    (hbuf : b.dataBank = some buf) (hpos : b.position < b.dataSize)
    (heq : b.readCount + 1 = b.downsampleRatio) (hle : b.downsampleRatio ≤ 255) :
    b.readByte = (buf.getD b.position 0,
      { b with readCount := 0, position := b.position + 1 }) := by
  have hrc : u8 (b.readCount + 1) = b.readCount + 1 := by unfold u8; omega
  simp only [Bank.readByte, hbuf]
  rw [if_neg (by omega)]
  rw [hrc, if_pos (by omega)]

/-- Helper: starting `r` reads before the cursor advances
(`readCount + r = ratio`), all `r` reads return the byte under the
cursor and the bank ends with the cursor advanced and the counter
reset. -/
theorem Bank.readN_replicate :
    ∀ (r : Nat) (b : Bank) (buf : List Nat), b.dataBank = some buf →
      b.position < b.dataSize → b.downsampleRatio ≤ 255 →
      b.readCount + r = b.downsampleRatio → 1 ≤ r →
      Bank.readN b r =
        (List.replicate r (buf.getD b.position 0),
         { b with position := b.position + 1, readCount := 0 }) := by
  intro r
  induction r with
  | zero => intro b buf _ _ _ _ h1; omega
  | succ n ih =>
    intro b buf hbuf hpos hratio hcount _
    cases n with
    | zero =>
      rw [Bank.readN_succ, Bank.readByte_advance b buf hbuf hpos (by omega) hratio]
      rfl
    | succ m =>
      rw [Bank.readN_succ, Bank.readByte_keep b buf hbuf hpos (by omega) hratio]
      have ihh := ih { b with readCount := b.readCount + 1 } buf hbuf hpos hratio
        (by simp only []; omega) (by omega)
      dsimp only at ihh ⊢
      rw [ihh]
      simp [List.replicate]

/-- C9: `PCMDataBank::readByte` — (i) with a null buffer, or when
`dacDisabled_` holds (in every reachable state a disabled bank has a
null buffer or zero stored bytes), or when `pos ≥ stored`, it returns
silence `0x80` and changes nothing; (ii) otherwise it returns the
stored byte under the cursor, incrementing `readCount_` and advancing
the cursor with `readCount_` reset exactly when the counter reaches the
downsample ratio; (iii) hence from a fresh counter each stored byte is
returned exactly `ratio` consecutive times before the cursor advances
(`ratio ∈ {1,2,4}` in every reachable state, so `ratio ≤ 255`). -/
theorem C9_bank_readByte (b : Bank) (buf : List Nat) :
    ((b.dataBank = none ∨ (b.dacDisabled = true ∧ (b.dataBank = none ∨ b.dataSize = 0)) ∨
        b.dataSize ≤ b.position) → b.readByte = (0x80, b)) ∧
    (b.dataBank = some buf → b.position < b.dataSize →
      b.readCount + 1 < b.downsampleRatio → b.downsampleRatio ≤ 255 →
      b.readByte = (buf.getD b.position 0, { b with readCount := b.readCount + 1 })) ∧
    (b.dataBank = some buf → b.position < b.dataSize →
      b.readCount + 1 = b.downsampleRatio → b.downsampleRatio ≤ 255 →
      b.readByte = (buf.getD b.position 0,
        { b with readCount := 0, position := b.position + 1 })) ∧
    (b.dataBank = some buf → b.position < b.dataSize → b.readCount = 0 →
      1 ≤ b.downsampleRatio → b.downsampleRatio ≤ 255 →
      Bank.readN b b.downsampleRatio =
        (List.replicate b.downsampleRatio (buf.getD b.position 0),
         { b with position := b.position + 1, readCount := 0 })) := by
  refine ⟨?_, ?_, ?_, ?_⟩
  · intro h
    cases hb : b.dataBank with
    | none => simp only [Bank.readByte, hb]
    | some buf' =>
      have hge : b.position ≥ b.dataSize := by
        rcases h with h | ⟨_, h | h⟩ | h
        · rw [hb] at h; exact absurd h (by simp)
        · rw [hb] at h; exact absurd h (by simp)
        · omega
        · omega
      simp only [Bank.readByte, hb]
      rw [if_pos hge]
  · intro hbuf hpos hlt hle
    exact Bank.readByte_keep b buf hbuf hpos hlt hle
  · intro hbuf hpos heq hle
    exact Bank.readByte_advance b buf hbuf hpos heq hle
  · intro hbuf hpos hrc h1 hle
    exact Bank.readN_replicate b.downsampleRatio b buf hbuf hpos hle (by omega) h1

/-- A concrete loaded bank: 3 stored bytes, downsample ratio 2. -/
def bankW : Bank :=
  { dataBank := some [7, 8, 9], allocatedSize := 3, dataSize := 3,
    originalSize := 6, position := 1, downsampleRatio := 2, readCount := 0,
    dacDisabled := false }

/-- Witness for C9 at a concrete input: with ratio 2 and a fresh
counter, the stored byte at the cursor is returned twice and then the
cursor advances. -/
theorem C9_bank_readByte_witness :
    bankW.dataBank = some [7, 8, 9] ∧ bankW.position < bankW.dataSize ∧
      Bank.readN bankW bankW.downsampleRatio =
        ([8, 8], { bankW with position := 2, readCount := 0 }) := by
  refine ⟨rfl, by decide, ?_⟩
  have h := (C9_bank_readByte bankW [7, 8, 9]).2.2.2 rfl (by decide) rfl
    (by decide) (by decide)
  simpa using h

/-! ## C8 — DPCM decoder range and seek coherence -/

/-- The list of the first `n` outputs of repeated
`GEPPlayer::readPCMSample` calls from a given state. -/
def GEP.decodeList : GEP → Nat → List Nat
  | _, 0 => []
  | s, n + 1 => (s.readPCMSample).1 :: GEP.decodeList (s.readPCMSample).2 n

/-- Helper: the `k`-th output of the forward decode from `s` is the
first output after `k` decode steps (`GEPPlayer::seekPCM` loop). -/
theorem GEP.decodeList_getD :
    ∀ (k n : Nat) (s : GEP), k < n →
      (GEP.decodeList s n).getD k 0 = ((GEP.seekLoop s k).readPCMSample).1 := by
  intro k
  induction k with
  | zero =>
    intro n s h
    cases n with
    | zero => omega
    | succ m => rfl
  | succ k ih =>
    intro n s h
    cases n with
    | zero => omega
    | succ m =>
      show (GEP.decodeList (s.readPCMSample).2 m).getD k 0 = _
      rw [ih m (s.readPCMSample).2 (by omega)]
      rfl

/-- C8: (i) every value produced by `GEPPlayer::readPCMSample` lies in
`[0, 255]` (the lower bound holds by the `Nat` value type; the clamp in
the DPCM branch gives the upper bound on all inputs); (ii) for the DPCM
decoder, the first sample produced after `seekPCM k` equals the `k`-th
sample of the stream decoded forward from `seekPCM 0`, for every
`k < n` and any forward-decode length `n`. -/
theorem C8_dpcm_decoder :
    (∀ s : GEP, (s.readPCMSample).1 ≤ 255) ∧
    (∀ (s : GEP) (k n : Nat), s.useDPCM = true → k < n →
      (GEP.decodeList (s.seekPCM 0) n).getD k 0 =
        ((s.seekPCM k).readPCMSample).1) := by
  constructor
  · intro s
    unfold GEP.readPCMSample
    cases hp : s.pcm with
    | none => simp
    | some pcm =>
      dsimp only
      by_cases hd : s.useDPCM = true
      · rw [if_pos hd]
        dsimp only
        split_ifs <;> simp <;> omega
      · rw [if_neg hd]
        dsimp only
        unfold u8
        omega
  · intro s k n hd hk
    have hs : s.seekPCM k = GEP.seekLoop
        { s with dpcmSample := (match s.pcm with
                                | some pcm => u8 (pcm 0)
                                | none => 0), pcmPos := 1 } k := by
      unfold GEP.seekPCM
      rw [if_pos hd]
    have hs0 : s.seekPCM 0 = { s with dpcmSample := (match s.pcm with
                                | some pcm => u8 (pcm 0)
                                | none => 0), pcmPos := 1 } := by
      unfold GEP.seekPCM
      rw [if_pos hd]
      rfl
    rw [hs, hs0]
    exact GEP.decodeList_getD k n _ hk

/-- A concrete DPCM state: initial sample 3, packed delta nibbles
`9, F, 5, 7` (deltas `+3, +55, −3, 0`). -/
def gepC8 : GEP :=
  { gep0 with pcm := some (fun i => [3, 0x9F, 0x57].getD i 0), useDPCM := true }

/-- Witness for C8 at a concrete input. -/
theorem C8_dpcm_decoder_witness :
    gepC8.useDPCM = true ∧ 1 < 3 ∧
      (GEP.decodeList (gepC8.seekPCM 0) 3).getD 1 0 =
        ((gepC8.seekPCM 1).readPCMSample).1 :=
  ⟨rfl, by omega, C8_dpcm_decoder.2 gepC8 1 3 rfl (by omega)⟩

/-! ## C6 — clock discipline: µs → sample conversion and rollover -/

/-- C6: (i) the `uint32_t` computation
`(elapsed/10000)*441 + ((elapsed%10000)*441)/10000` performed by both
`GenesisEngine::update` and `GEPPlayer::update` never overflows — it
equals the exact integer formula for every 32-bit `elapsed`; (ii) on a
tick under `Playing`, when `elapsed ≤ 2^31` the update runs its
catch-up loop with exactly that target, and when `elapsed > 2^31` the
player re-anchors `start_time_us := now_us` and returns with no other
state change and no board call (in particular `samples_played` is
kept). -/
theorem C6_target_conversion :
    (∀ elapsed : Nat, elapsed < 4294967296 →
        targetSamples32 elapsed = targetSamplesSpec elapsed) ∧
    (∀ (alloc : Nat → Option Bool) (fuel : Nat) (e : Eng) (now : Nat),
        e.state = PState.playing →
        (sub32 now e.playbackStartTime ≤ 0x80000000 →
          Eng.update alloc fuel e now =
            Eng.updLoop alloc fuel e
              (targetSamplesSpec (sub32 now e.playbackStartTime))) ∧
        (0x80000000 < sub32 now e.playbackStartTime →
          Eng.update alloc fuel e now =
            some ({ e with playbackStartTime := u32 now }, []))) ∧
    (∀ (fuel : Nat) (s : GEP) (now : Nat),
        s.state = PState.playing →
        (sub32 now s.playbackStartTime ≤ 0x80000000 →
          GEP.update fuel s now =
            GEP.updLoopG fuel s
              (targetSamplesSpec (sub32 now s.playbackStartTime))) ∧
        (0x80000000 < sub32 now s.playbackStartTime →
          GEP.update fuel s now =
            some ({ s with playbackStartTime := u32 now }, []))) := by
  have ht0 : targetSamples32 0 = 0 := rfl
  have key : ∀ elapsed : Nat, elapsed < 4294967296 →
      targetSamples32 elapsed = targetSamplesSpec elapsed := by
    intro elapsed h
    unfold targetSamples32 targetSamplesSpec u32
    have e1 : elapsed / 10000 % 4294967296 = elapsed / 10000 :=
      Nat.mod_eq_of_lt (by omega)
    rw [e1]
    have e2 : elapsed / 10000 * 441 % 4294967296 = elapsed / 10000 * 441 :=
      Nat.mod_eq_of_lt (by omega)
    rw [e2]
    have e3 : elapsed % 10000 % 4294967296 = elapsed % 10000 :=
      Nat.mod_eq_of_lt (by omega)
    rw [e3]
    have e4 : elapsed % 10000 * 441 % 4294967296 = elapsed % 10000 * 441 :=
      Nat.mod_eq_of_lt (by omega)
    rw [e4]
    exact Nat.mod_eq_of_lt (by omega)
  have hsub : ∀ a b : Nat, sub32 a b < 4294967296 := by
    intro a b
    unfold sub32
    omega
  refine ⟨key, ?_, ?_⟩
  · intro alloc fuel e now h
    constructor
    · intro hle
      unfold Eng.update
      rw [if_neg (by simp [h]), if_neg (by omega), key _ (hsub now e.playbackStartTime)]
    · intro hgt
      unfold Eng.update
      rw [if_neg (by simp [h]), if_pos (by omega)]
      cases fuel with
      | zero => unfold Eng.updLoop; rw [ht0, if_neg (Nat.not_lt_zero _)]
      | succ fuel => unfold Eng.updLoop; rw [ht0, if_neg (Nat.not_lt_zero _)]
  · intro fuel s now h
    constructor
    · intro hle
      unfold GEP.update
      rw [if_neg (by simp [h]), if_neg (by omega), key _ (hsub now s.playbackStartTime)]
    · intro hgt
      unfold GEP.update
      rw [if_neg (by simp [h]), if_pos (by omega)]
      cases fuel with
      | zero => unfold GEP.updLoopG; rw [ht0, if_neg (Nat.not_lt_zero _)]
      | succ fuel => unfold GEP.updLoopG; rw [ht0, if_neg (Nat.not_lt_zero _)]

/-- An empty closed source. -/
def srcEmpty : Src :=
  { data := fun _ => 0, length := 0, pos := 0, dataStartOffset := 0, isOpen := false }

/-- The `VGMParser` constructor state (`loopCount_` is in fact left
uninitialised by the constructor; it is taken as 0 here). -/
def parser0 : Parser :=
  { version := 0, totalSamples := 0, loopSamples := 0, dataOffset := 0,
    loopOffset := 0, hasLoop := false, hasYM2612 := false, hasSN76489 := false,
    finished := true, loopCount := 0, bank := Bank.init, hasCallback := false }

/-- A concrete engine state in `Playing`, anchored at time 0. -/
def engPlayW : Eng :=
  { parser := parser0, src := srcEmpty, state := PState.playing,
    looping := false, currentSample := 0, waitSamples := 0,
    playbackStartTime := 0, samplesPlayed := 0 }

/-- Witness for C6 at a concrete input (10 000 µs elapsed, no
rollover). -/
theorem C6_target_conversion_witness :
    engPlayW.state = PState.playing ∧
      sub32 10000 engPlayW.playbackStartTime ≤ 0x80000000 ∧
      Eng.update allocNone 3 engPlayW 10000 =
        Eng.updLoop allocNone 3 engPlayW
          (targetSamplesSpec (sub32 10000 engPlayW.playbackStartTime)) :=
  ⟨rfl, by decide,
    (C6_target_conversion.2.1 allocNone 3 engPlayW 10000 rfl).1 (by decide)⟩

/-! ## C3 — post-state of a tick under `Playing` -/

/-- The sample target a tick computes for a given `now` (the branch
structure of `GenesisEngine::update` / `GEPPlayer::update`). -/
def tickTarget (playbackStartTime now : Nat) : Nat :=
  if sub32 now playbackStartTime > 0x80000000 then targetSamples32 0
  else targetSamples32 (sub32 now playbackStartTime)

/-- Helper: every terminating run of the engine catch-up loop ends with
positive wait credit, or a non-`Playing` state, or the sample counter
caught up to the target. -/
theorem Eng.updLoop_post (alloc : Nat → Option Bool) :
    ∀ (fuel : Nat) (e : Eng) (target : Nat) (e' : Eng) (tr : List Ev),
      Eng.updLoop alloc fuel e target = some (e', tr) →
      0 < e'.waitSamples ∨ e'.state ≠ PState.playing ∨ target ≤ e'.samplesPlayed := by
  intro fuel
  induction fuel with
  | zero =>
    intro e target e' tr h
    unfold Eng.updLoop at h
    split at h
    · exact absurd h (by simp)
    next hc =>
      simp only [Option.some.injEq, Prod.mk.injEq] at h
      obtain ⟨he, -⟩ := h
      subst he
      exact Or.inr (Or.inr (by omega))
  | succ fuel ih =>
    intro e target e' tr h
    unfold Eng.updLoop at h
    split at h
    next hc =>
      split at h
      next hw =>
        simp only [Option.some.injEq, Prod.mk.injEq] at h
        obtain ⟨he, -⟩ := h
        subst he
        exact Or.inl hw
      next hw =>
        cases hpc : Eng.processCommands alloc fuel (Eng.consumeWait e target) with
        | none => rw [hpc] at h; exact absurd h (by simp)
        | some res =>
          obtain ⟨e2, tr2⟩ := res
          rw [hpc] at h
          dsimp only at h
          split at h
          next hs =>
            simp only [Option.some.injEq, Prod.mk.injEq] at h
            obtain ⟨he, -⟩ := h
            subst he
            exact Or.inr (Or.inl hs)
          next hs =>
            cases hrec : Eng.updLoop alloc fuel e2 target with
            | none => rw [hrec] at h; exact absurd h (by simp)
            | some res2 =>
              obtain ⟨e3, tr3⟩ := res2
              rw [hrec] at h
              simp only [Option.some.injEq, Prod.mk.injEq] at h
              obtain ⟨he, -⟩ := h
              subst he
              exact ih e2 target e3 tr3 hrec
    next hc =>
      simp only [Option.some.injEq, Prod.mk.injEq] at h
      obtain ⟨he, -⟩ := h
      subst he
      exact Or.inr (Or.inr (by omega))

/-- Helper: the same post-state property for the GEP catch-up loop. -/
theorem GEP.updLoopG_post :
    ∀ (fuel : Nat) (s : GEP) (target : Nat) (s' : GEP) (tr : List Ev),
      GEP.updLoopG fuel s target = some (s', tr) →
      0 < s'.waitSamples ∨ s'.state ≠ PState.playing ∨ target ≤ s'.samplesPlayed := by
  intro fuel
  induction fuel with
  | zero =>
    intro s target s' tr h
    unfold GEP.updLoopG at h
    split at h
    · exact absurd h (by simp)
    next hc =>
      simp only [Option.some.injEq, Prod.mk.injEq] at h
      obtain ⟨hs, -⟩ := h
      subst hs
      exact Or.inr (Or.inr (by omega))
  | succ fuel ih =>
    intro s target s' tr h
    unfold GEP.updLoopG at h
    split at h
    next hc =>
      split at h
      next hw =>
        rw [Option.some.injEq] at h
        have h1 : (GEP.consumeWaitG s target).1 = s' := congrArg Prod.fst h
        exact Or.inl (by rw [← h1]; exact hw)
      next hw =>
        cases hpc : GEP.processCommands fuel (GEP.consumeWaitG s target).1 with
        | none => rw [hpc] at h; exact absurd h (by simp)
        | some res =>
          obtain ⟨s2, tr2⟩ := res
          rw [hpc] at h
          dsimp only at h
          split at h
          next hs2 =>
            simp only [Option.some.injEq, Prod.mk.injEq] at h
            obtain ⟨hs, -⟩ := h
            subst hs
            exact Or.inr (Or.inl hs2)
          next hs2 =>
            cases hrec : GEP.updLoopG fuel s2 target with
            | none => rw [hrec] at h; exact absurd h (by simp)
            | some res2 =>
              obtain ⟨s3, tr3⟩ := res2
              rw [hrec] at h
              simp only [Option.some.injEq, Prod.mk.injEq] at h
              obtain ⟨hs, -⟩ := h
              subst hs
              exact ih s2 target s3 tr3 hrec
    next hc =>
      simp only [Option.some.injEq, Prod.mk.injEq] at h
      obtain ⟨hs, -⟩ := h
      subst hs
      exact Or.inr (Or.inr (by omega))

/-- C3 (amended): on every terminating tick entered under `Playing`,
when the call returns either the pending wait credit is strictly
positive, or the player is no longer `Playing`, **or the player has
caught up with the tick's wall-clock sample target** — the third
disjunct is genuinely needed (e.g. a tick on which zero virtual time
has elapsed returns with zero credit while still `Playing`). -/
theorem C3_tick_post :
    (∀ (alloc : Nat → Option Bool) (fuel : Nat) (e : Eng) (now : Nat)
        (e' : Eng) (tr : List Ev),
      e.state = PState.playing →
      Eng.update alloc fuel e now = some (e', tr) →
      0 < e'.waitSamples ∨ e'.state ≠ PState.playing ∨
        tickTarget e.playbackStartTime now ≤ e'.samplesPlayed) ∧
    (∀ (fuel : Nat) (s : GEP) (now : Nat) (s' : GEP) (tr : List Ev),
      s.state = PState.playing →
      GEP.update fuel s now = some (s', tr) →
      0 < s'.waitSamples ∨ s'.state ≠ PState.playing ∨
        tickTarget s.playbackStartTime now ≤ s'.samplesPlayed) := by
  constructor
  · intro alloc fuel e now e' tr hst h
    unfold Eng.update at h
    rw [if_neg (by simp [hst])] at h
    unfold tickTarget
    split at h
    · next hro => rw [if_pos hro]; exact Eng.updLoop_post alloc fuel _ _ e' tr h
    · next hro => rw [if_neg hro]; exact Eng.updLoop_post alloc fuel _ _ e' tr h
  · intro fuel s now s' tr hst h
    unfold GEP.update at h
    rw [if_neg (by simp [hst])] at h
    unfold tickTarget
    split at h
    · next hro => rw [if_pos hro]; exact GEP.updLoopG_post fuel _ _ s' tr h
    · next hro => rw [if_neg hro]; exact GEP.updLoopG_post fuel _ _ s' tr h

/-- Counterexample for C3 as stated: on a tick where zero virtual time
has elapsed since play started, `update` returns with `waitSamples_ = 0`
while the player is still `Playing` — so "wait credit positive or no
longer Playing" fails at this concrete input. -/
theorem C3_counterexample :
    Eng.update allocNone 3 engPlayW 0 = some (engPlayW, []) ∧
      engPlayW.state = PState.playing ∧
      ¬(0 < engPlayW.waitSamples ∨ engPlayW.state ≠ PState.playing) := by
  refine ⟨rfl, rfl, ?_⟩
  decide

/-- Witness for C3 (amended) at a concrete input. -/
theorem C3_tick_post_witness :
    engPlayW.state = PState.playing ∧
      Eng.update allocNone 3 engPlayW 0 = some (engPlayW, []) ∧
      (0 < engPlayW.waitSamples ∨ engPlayW.state ≠ PState.playing ∨
        tickTarget engPlayW.playbackStartTime 0 ≤ engPlayW.samplesPlayed) :=
  ⟨rfl, rfl, C3_tick_post.1 allocNone 3 engPlayW 0 engPlayW [] rfl rfl⟩

/-! ## C2 — VGM opcodes `0x80..0x8F` -/

/-- C2 (amended): for every VGM opcode in `0x80..0x8F` read from an
available source, the interpreter emits exactly one
`ChipBus::write_dac` **iff the PCM bank has data** (`stored > 0`), and
otherwise emits none; in both cases it returns a wait of `cmd & 0x0F`
samples having consumed exactly the opcode byte. -/
theorem C2_dac_opcode (alloc : Nat → Option Bool) (p : Parser) (src : Src)
    (hav : src.available = true)
    (h80 : 0x80 ≤ u8 (src.data src.pos)) (h8F : u8 (src.data src.pos) ≤ 0x8F) :
    Parser.processCommand alloc p src =
      (((u8 (src.data src.pos) &&& 0x0F : Nat) : Int),
       (if p.bank.hasData then { p with bank := (p.bank.readByte).2 } else p),
       { src with pos := src.pos + 1 },
       if p.bank.hasData then [Ev.writeDAC (p.bank.readByte).1] else []) := by
  have hopen : src.isOpen = true := by
    unfold Src.available at hav
    exact (Bool.and_eq_true _ _ |>.mp hav).1
  have hlt : src.pos < src.length := by
    unfold Src.available at hav
    have := (Bool.and_eq_true _ _ |>.mp hav).2
    exact of_decide_eq_true this
  have hread : src.read = (some (u8 (src.data src.pos)), { src with pos := src.pos + 1 }) := by
    unfold Src.read
    rw [if_neg (by simp [hopen]; omega)]
  unfold Parser.processCommand
  rw [hread]
  dsimp only
  repeat rw [if_neg (by omega)]
  rw [if_pos (by omega)]
  cases hb : p.bank.hasData with
  | false => simp [hb]
  | true =>
    rcases hrb : p.bank.readByte with ⟨v, bank'⟩
    simp [hb, hrb]

/-- A one-byte source holding only the opcode `0x85`. -/
def srcC2 : Src :=
  { data := fun i => [0x85].getD i 0, length := 1, pos := 0,
    dataStartOffset := 0, isOpen := true }

/-- Counterexample for C2 as stated: with an empty PCM bank (the
`parser0` bank is `Bank.init`), opcode `0x85` emits **zero**
`write_dac` calls — not exactly one — while still returning wait 5. -/
theorem C2_counterexample :
    0x80 ≤ u8 (srcC2.data srcC2.pos) ∧ u8 (srcC2.data srcC2.pos) ≤ 0x8F ∧
      (Parser.processCommand allocNone parser0 srcC2).2.2.2 = [] ∧
      (Parser.processCommand allocNone parser0 srcC2).1 = 5 := by
  refine ⟨by decide, by decide, rfl, rfl⟩

/-- A parser whose bank holds data, and a source holding opcode `0x83`. -/
def parserC2 : Parser := { parser0 with bank := bankW }

def srcC2W : Src :=
  { data := fun i => [0x83].getD i 0, length := 1, pos := 0,
    dataStartOffset := 0, isOpen := true }

/-- Witness for C2 (amended) at a concrete input. -/
theorem C2_dac_opcode_witness :
    Parser.processCommand allocNone parserC2 srcC2W =
      (((u8 (srcC2W.data srcC2W.pos) &&& 0x0F : Nat) : Int),
       (if parserC2.bank.hasData then
          { parserC2 with bank := (parserC2.bank.readByte).2 }
        else parserC2),
       { srcC2W with pos := srcC2W.pos + 1 },
       if parserC2.bank.hasData then [Ev.writeDAC (parserC2.bank.readByte).1]
       else []) :=
  C2_dac_opcode allocNone parserC2 srcC2W rfl (by decide) (by decide)

/-! ## C5 — post-state of a successful `parseHeader` -/

/-- C5 (amended): on every successful `parse_header`, at least one chip
is enabled, and the parsed fields are exactly the header's read values:
`version` is the word read at offset `0x08`; `data_offset` is `0x40`
when the version is below 1.50 or the relative data offset read at
`0x34` is zero, and otherwise `0x34 + rel` (mod 2^32) for that read
value — the code performs **no** `≥ 0x40` lower-bound check on it;
`has_loop` holds exactly when the relative loop offset read at `0x1C`
is nonzero, and in that case `loop_offset = 0x1C + rel` (mod 2^32) for
that read value — the code performs **no** containment check against
`[data_offset, size)`. -/
theorem C5_parseHeader_post (p : Parser) (src : Src) (p' : Parser) (src' : Src)
    (h : Parser.parseHeader p src = (true, p', src')) :
    (p'.hasYM2612 = true ∨ p'.hasSN76489 = true) ∧
    p'.version = vgmVersion src ∧
    p'.dataOffset =
      (if vgmVersion src ≥ 0x150 then
        if vgmDataRel src ≠ 0 then u32 (0x34 + vgmDataRel src) else 0x40
      else 0x40) ∧
    (p'.hasLoop = true ↔ vgmLoopRel src ≠ 0) ∧
    (vgmLoopRel src ≠ 0 → p'.loopOffset = u32 (0x1C + vgmLoopRel src)) := by
  have boolHelper : ∀ b c : Bool, ¬(b = false ∧ c = false) → b = true ∨ c = true := by
    decide
  unfold Parser.parseHeader at h
  split at h
  · exact Bool.noConfusion (show false = true from congrArg Prod.fst h)
  split at h
  · exact Bool.noConfusion (show false = true from congrArg Prod.fst h)
  split at h
  · exact Bool.noConfusion (show false = true from congrArg Prod.fst h)
  split at h
  next hLR =>
    dsimp only at h
    split at h
    · exact Bool.noConfusion (show false = true from congrArg Prod.fst h)
    next hchips =>
      injection h with h1 h2
      injection h2 with hp hs
      have hYM : p'.hasYM2612 = vgmHasYM p src := by rw [← hp]
      have hSN : p'.hasSN76489 = decide (vgmSNClock src ≠ 0) := by rw [← hp]
      have hver : p'.version = vgmVersion src := by rw [← hp]
      have hDO : p'.dataOffset = vgmDataOffset src := by rw [← hp]
      have hHL : p'.hasLoop = decide (vgmLoopRel src ≠ 0) := by rw [← hp]
      have hLO : p'.loopOffset = u32 (0x1C + vgmLoopRel src) := by rw [← hp]
      refine ⟨?_, hver, ?_, ?_, ?_⟩
      · rw [hYM, hSN]
        exact boolHelper _ _ hchips
      · exact hDO.trans rfl
      · rw [hHL]
        constructor
        · intro _
          exact hLR
        · intro _
          exact decide_eq_true hLR
      · intro _
        exact hLO
  next hLR =>
    dsimp only at h
    split at h
    · exact Bool.noConfusion (show false = true from congrArg Prod.fst h)
    next hchips =>
      injection h with h1 h2
      injection h2 with hp hs
      have hYM : p'.hasYM2612 = vgmHasYM p src := by rw [← hp]
      have hSN : p'.hasSN76489 = decide (vgmSNClock src ≠ 0) := by rw [← hp]
      have hver : p'.version = vgmVersion src := by rw [← hp]
      have hDO : p'.dataOffset = vgmDataOffset src := by rw [← hp]
      have hHL : p'.hasLoop = decide (vgmLoopRel src ≠ 0) := by rw [← hp]
      refine ⟨?_, hver, ?_, ?_, ?_⟩
      · rw [hYM, hSN]
        exact boolHelper _ _ hchips
      · exact hDO.trans rfl
      · rw [hHL]
        constructor
        · intro hd
          exact absurd (of_decide_eq_true hd) hLR
        · intro hr
          exact absurd hr hLR
      · intro hr
        exact absurd hr hLR

/-- A crafted 64-byte VGM header: version 1.50, SN76489 clock 1,
relative loop offset 1 (absolute `0x1D`), relative data offset 1
(absolute `0x35`). -/
def vgmHdrC5 : Nat → Nat := fun i =>
  if i = 0 then 0x56 else if i = 1 then 0x67
  else if i = 2 then 0x6D else if i = 3 then 0x20
  else if i = 8 then 0x50 else if i = 9 then 0x01
  else if i = 12 then 1
  else if i = 28 then 1
  else if i = 52 then 1
  else 0

def srcC5 : Src :=
  { data := vgmHdrC5, length := 64, pos := 0,
    dataStartOffset := 0, isOpen := true }

/-- Counterexample for C5 as stated: this header parses successfully,
yet `data_offset = 0x35 < 0x40`, and the loop offset `0x1D` lies below
`data_offset` (so outside `[data_offset, size)`). -/
theorem C5_counterexample :
    (Parser.parseHeader parser0 srcC5).1 = true ∧
      (Parser.parseHeader parser0 srcC5).2.1.dataOffset = 0x35 ∧
      (Parser.parseHeader parser0 srcC5).2.1.hasLoop = true ∧
      (Parser.parseHeader parser0 srcC5).2.1.loopOffset = 0x1D ∧
      srcC5.length = 64 ∧
      ¬(0x40 ≤ (Parser.parseHeader parser0 srcC5).2.1.dataOffset) ∧
      (Parser.parseHeader parser0 srcC5).2.1.loopOffset <
        (Parser.parseHeader parser0 srcC5).2.1.dataOffset := by
  refine ⟨rfl, rfl, rfl, rfl, rfl, ?_, ?_⟩ <;> decide

/-- Witness for C5 (amended) at a concrete successfully-parsed input. -/
theorem C5_parseHeader_post_witness :
    ((Parser.parseHeader parser0 srcC5).2.1.hasYM2612 = true ∨
      (Parser.parseHeader parser0 srcC5).2.1.hasSN76489 = true) ∧
    (Parser.parseHeader parser0 srcC5).2.1.version = vgmVersion srcC5 ∧
    (Parser.parseHeader parser0 srcC5).2.1.dataOffset =
      (if vgmVersion srcC5 ≥ 0x150 then
        if vgmDataRel srcC5 ≠ 0 then u32 (0x34 + vgmDataRel srcC5) else 0x40
      else 0x40) ∧
    ((Parser.parseHeader parser0 srcC5).2.1.hasLoop = true ↔ vgmLoopRel srcC5 ≠ 0) ∧
    (vgmLoopRel srcC5 ≠ 0 →
      (Parser.parseHeader parser0 srcC5).2.1.loopOffset =
        u32 (0x1C + vgmLoopRel srcC5)) :=
  C5_parseHeader_post parser0 srcC5 (Parser.parseHeader parser0 srcC5).2.1
    (Parser.parseHeader parser0 srcC5).2.2 rfl

/-! ## C7 — GEP `0xB9` DAC run -/

/-- The `i`-th per-sample 4-bit wait of a DAC run whose packed bytes
start at `base`: two waits per byte, high nibble first. -/
def nibbleWait (data : Nat → Nat) (base i : Nat) : Nat :=
  if i % 2 = 0 then (u8 (data (base + i / 2)) >>> 4) &&& 0x0F
  else u8 (data (base + i / 2)) &&& 0x0F

theorem nibbleWait_shift (data : Nat → Nat) (base i : Nat) :
    nibbleWait data base (i + 2) = nibbleWait data (base + 1) i := by
  unfold nibbleWait
  have h1 : (i + 2) % 2 = i % 2 := by omega
  have h2 : (i + 2) / 2 = i / 2 + 1 := by omega
  have h3 : base + (i / 2 + 1) = base + 1 + i / 2 := by omega
  rw [h1, h2, h3]

/-- `readPCMSample` never touches the command stream cursor. -/
theorem GEP.readPCMSample_currentPos (s : GEP) :
    ((s.readPCMSample).2).currentPos = s.currentPos := by
  unfold GEP.readPCMSample
  cases s.pcm with
  | none => rfl
  | some pcm =>
    dsimp only
    by_cases hd : s.useDPCM = true
    · rw [if_pos hd]
    · rw [if_neg hd]

/-- `readPCMSample` never touches the command stream memory. -/
theorem GEP.readPCMSample_currentData (s : GEP) :
    ((s.readPCMSample).2).currentData = s.currentData := by
  unfold GEP.readPCMSample
  cases s.pcm with
  | none => rfl
  | some pcm =>
    dsimp only
    by_cases hd : s.useDPCM = true
    · rw [if_pos hd]
    · rw [if_neg hd]

theorem GEP.readByteG_pos (s : GEP) :
    ((s.readByteG).2).currentPos = u16 (s.currentPos + 1) := rfl

theorem GEP.readByteG_data (s : GEP) :
    ((s.readByteG).2).currentData = s.currentData := rfl

/-- Helper: once the `uint8_t` loop index is at or past `count`, the
DAC-run loop exits immediately at any fuel. -/
theorem GEP.dacRunLoop_exit (count : Nat) :
    ∀ (fuel : Nat) (s : GEP) (i : Nat), ¬ i < count →
      GEP.dacRunLoop count fuel s i = some (0, s, []) := by
  intro fuel s i h
  cases fuel with
  | zero => unfold GEP.dacRunLoop; rw [if_neg h]
  | succ f => unfold GEP.dacRunLoop; rw [if_neg h]

/-- Helper (the divergence itself): with `count = 255` the even
`uint8_t` loop index wraps from 254 back to 0 before ever reaching 255,
so the loop never exits — no amount of fuel produces a result. -/
theorem GEP.dacRunLoop_255_none :
    ∀ (fuel : Nat) (s : GEP) (i : Nat), i % 2 = 0 → i < 255 →
      GEP.dacRunLoop 255 fuel s i = none := by
  intro fuel
  induction fuel with
  | zero =>
    intro s i _ hi
    unfold GEP.dacRunLoop
    rw [if_pos hi]
  | succ f ih =>
    intro s i hev hi
    have h1 : u8 (i + 2) % 2 = 0 := by unfold u8; omega
    have h2 : u8 (i + 2) < 255 := by unfold u8; omega
    unfold GEP.dacRunLoop
    rw [if_pos hi]
    by_cases hc : i + 1 < 255
    · rw [if_pos hc, ih _ _ h1 h2]
    · rw [if_neg hc, ih _ _ h1 h2]

/-- Helper: when `i + r = count ≤ 254` the `uint8_t` index never wraps,
so from index `i` the DAC-run loop terminates within any fuel of at
least `(r + 1) / 2`, emits exactly `r` DAC writes and returns the sum
of the `r` leading nibble waits. -/
theorem GEP.dacRunLoop_spec :
    ∀ (r : Nat) (s : GEP) (count i fuel : Nat),
      i + r = count → count ≤ 254 → (r + 1) / 2 ≤ fuel →
      s.currentPos + r ≤ 65535 →
      ∃ s' tr,
        GEP.dacRunLoop count fuel s i =
          some (∑ j in Finset.range r, nibbleWait s.currentData s.currentPos j,
                s', tr) ∧
        tr.length = r ∧ ∀ e ∈ tr, ∃ v, e = Ev.writeDAC v := by
  intro r
  induction r using Nat.strong_induction_on with
  | _ r ih =>
    match r with
    | 0 =>
      intro s count i fuel hic hcount hfuel hbound
      refine ⟨s, [], ?_, rfl, ?_⟩
      · rw [Finset.sum_range_zero]
        exact GEP.dacRunLoop_exit count fuel s i (by omega)
      · intro e he
        simp at he
    | 1 =>
      intro s count i fuel hic hcount hfuel hbound
      cases fuel with
      | zero => omega
      | succ f =>
        have hu8 : u8 (i + 2) = i + 2 := by unfold u8; omega
        have hrun : GEP.dacRunLoop count (f + 1) s i =
            some (((s.readByteG).1 >>> 4) &&& 0x0F,
                  (((s.readByteG).2).readPCMSample).2,
                  [Ev.writeDAC (((s.readByteG).2).readPCMSample).1]) := by
          unfold GEP.dacRunLoop
          rw [if_pos (by omega), if_neg (by omega), hu8,
              GEP.dacRunLoop_exit count f _ _ (by omega)]
          rfl
        have hsum : (∑ j in Finset.range 1, nibbleWait s.currentData s.currentPos j) =
            ((s.readByteG).1 >>> 4) &&& 0x0F := by
          rw [Finset.sum_range_one]
          unfold nibbleWait
          rw [if_pos (by omega)]
          rfl
        refine ⟨(((s.readByteG).2).readPCMSample).2,
          [Ev.writeDAC (((s.readByteG).2).readPCMSample).1], ?_, rfl, ?_⟩
        · rw [hrun, hsum]
        · intro e he
          simp only [List.mem_singleton] at he
          exact ⟨_, he⟩
    | r + 2 =>
      intro s count i fuel hic hcount hfuel hbound
      cases fuel with
      | zero => omega
      | succ f =>
        have hu8 : u8 (i + 2) = i + 2 := by unfold u8; omega
        have hu16 : u16 (s.currentPos + 1) = s.currentPos + 1 := by
          unfold u16; omega
        have hS3pos :
            (((((s.readByteG).2).readPCMSample).2.readPCMSample).2).currentPos =
              s.currentPos + 1 := by
          rw [GEP.readPCMSample_currentPos, GEP.readPCMSample_currentPos,
              GEP.readByteG_pos, hu16]
        have hS3data :
            (((((s.readByteG).2).readPCMSample).2.readPCMSample).2).currentData =
              s.currentData := by
          rw [GEP.readPCMSample_currentData, GEP.readPCMSample_currentData,
              GEP.readByteG_data]
        obtain ⟨s', tr', hEq, hLen, hDac⟩ :=
          ih r (by omega) ((((s.readByteG).2).readPCMSample).2.readPCMSample).2
            count (i + 2) f (by omega) hcount (by omega)
            (by rw [hS3pos]; omega)
        rw [hS3pos, hS3data] at hEq
        have hrun : GEP.dacRunLoop count (f + 1) s i =
            some ((((s.readByteG).1 >>> 4) &&& 0x0F) + ((s.readByteG).1 &&& 0x0F) +
                    (∑ j in Finset.range r,
                      nibbleWait s.currentData (s.currentPos + 1) j),
                  s',
                  Ev.writeDAC (((s.readByteG).2).readPCMSample).1 ::
                    Ev.writeDAC ((((s.readByteG).2).readPCMSample).2.readPCMSample).1 ::
                    tr') := by
          unfold GEP.dacRunLoop
          rw [if_pos (by omega), if_pos (by omega), hu8, hEq]
        have hS : (((s.readByteG).1 >>> 4) &&& 0x0F) + ((s.readByteG).1 &&& 0x0F) +
            (∑ j in Finset.range r, nibbleWait s.currentData (s.currentPos + 1) j) =
            ∑ j in Finset.range (r + 2), nibbleWait s.currentData s.currentPos j := by
          rw [Finset.sum_range_succ', Finset.sum_range_succ']
          have hsh : ∀ j, nibbleWait s.currentData s.currentPos (j + 1 + 1) =
              nibbleWait s.currentData (s.currentPos + 1) j := by
            intro j
            have hj : j + 1 + 1 = j + 2 := by omega
            rw [hj, nibbleWait_shift]
          simp only [hsh]
          have h0 : nibbleWait s.currentData s.currentPos 0 =
              ((s.readByteG).1 >>> 4) &&& 0x0F := by
            unfold nibbleWait
            rw [if_pos (by omega)]
            rfl
          have h1 : nibbleWait s.currentData s.currentPos (0 + 1) =
              (s.readByteG).1 &&& 0x0F := by
            unfold nibbleWait
            rw [if_neg (by omega)]
            rfl
          rw [h0, h1]
          omega
        rw [hS] at hrun
        refine ⟨_, _, hrun, ?_, ?_⟩
        · rw [List.length_cons, List.length_cons, hLen]
        · intro e he
          simp only [List.mem_cons] at he
          rcases he with he | he | he
          · exact ⟨_, he⟩
          · exact ⟨_, he⟩
          · exact hDac e he

/-- C7 (amended): for every GEP `0xB9` DAC-run command with count
`n ≤ 254` (even or odd) and any packed nibble bytes, `processCommand`
emits exactly `n` `write_dac` calls and returns a wait equal to the sum
of the first `n` per-sample 4-bit waits taken from the packed bytes,
high nibble first within each byte; with count `255` the `uint8_t` loop
index `i += 2` wraps from 254 back to 0 and the handler never returns
(the embedding yields `none`, cf. `GEP.dacRunLoop_255_none`).  The
`≤ 65535` side conditions exclude `uint16_t` wrap of the stream cursor
across the command. -/
theorem C7_dac_run :
    (∀ (s : GEP) (n : Nat),
      (s.currentPos < s.currentDataSize ∨ s.currentDataSize = 0xFFFF) →
      u8 (s.currentData s.currentPos) = 0xB9 →
      u8 (s.currentData (s.currentPos + 1)) = n →
      n ≤ 254 →
      s.currentPos + 2 + n ≤ 65535 →
      ∃ s' tr,
        s.processCommand =
          some (((∑ i in Finset.range n,
                   nibbleWait s.currentData (s.currentPos + 2) i : Nat) : Int),
                s', tr) ∧
        tr.length = n ∧ ∀ e ∈ tr, ∃ v, e = Ev.writeDAC v) ∧
    (∀ s : GEP,
      (s.currentPos < s.currentDataSize ∨ s.currentDataSize = 0xFFFF) →
      u8 (s.currentData s.currentPos) = 0xB9 →
      u8 (s.currentData (s.currentPos + 1)) = 255 →
      s.currentPos + 2 ≤ 65535 →
      s.processCommand = none) := by
  constructor
  · intro s n hentry hcmd hcount hle hbound
    have hguard : ¬(s.currentPos ≥ s.currentDataSize ∧ s.currentDataSize ≠ 0xFFFF) := by
      rcases hentry with h | h
      · intro hc; omega
      · intro hc; exact hc.2 h
    have hu16a : u16 (s.currentPos + 1) = s.currentPos + 1 := by unfold u16; omega
    have hu16b : u16 (s.currentPos + 1 + 1) = s.currentPos + 2 := by unfold u16; omega
    obtain ⟨s', tr, hEq, hLen, hDac⟩ :=
      GEP.dacRunLoop_spec n { s with currentPos := s.currentPos + 2 } n 0 128
        (by omega) hle (by omega) (by dsimp only; omega)
    dsimp only at hEq
    refine ⟨s', tr, ?_, hLen, hDac⟩
    unfold GEP.processCommand
    rw [if_neg hguard]
    dsimp only [GEP.readByteG]
    rw [hcmd]
    repeat rw [if_neg (by decide)]
    rw [if_pos (by decide)]
    rw [hu16a, hcount, hu16b, hEq]
  · intro s hentry hcmd hcount hbound
    have hguard : ¬(s.currentPos ≥ s.currentDataSize ∧ s.currentDataSize ≠ 0xFFFF) := by
      rcases hentry with h | h
      · intro hc; omega
      · intro hc; exact hc.2 h
    have hu16a : u16 (s.currentPos + 1) = s.currentPos + 1 := by unfold u16; omega
    have hu16b : u16 (s.currentPos + 1 + 1) = s.currentPos + 2 := by unfold u16; omega
    unfold GEP.processCommand
    rw [if_neg hguard]
    dsimp only [GEP.readByteG]
    rw [hcmd]
    repeat rw [if_neg (by decide)]
    rw [if_pos (by decide)]
    rw [hu16a, hcount, hu16b]
    rw [GEP.dacRunLoop_255_none 128 _ 0 rfl (by omega)]

/-- A concrete DAC-run input: `B9 03 21 40` (count 3, waits 2, 1, 4). -/
def gepC7 : GEP :=
  { gep0 with currentData := fun i => [0xB9, 3, 0x21, 0x40].getD i 0,
              currentDataSize := 0xFFFF }

/-- A concrete DAC-run input with count 255: `B9 FF` then packed bytes. -/
def gepC7x : GEP :=
  { gep0 with currentData := fun i =>
                if i = 0 then 0xB9 else if i = 1 then 0xFF else 0x21,
              currentDataSize := 0xFFFF }

set_option maxRecDepth 8192 in
/-- Counterexample for C7 as stated: count `255` is a count the claim's
"even or odd" quantification covers, yet the `for (uint8_t i = 0;
i < count; i += 2)` loop index stays even and wraps from 254 back to 0,
so the handler never returns a wait and never stops emitting — instead
of the claimed `n`-DAC-writes-then-return, the command diverges (the
embedding's `processCommand` yields `none` because no fuel suffices,
`GEP.dacRunLoop_255_none`). -/
theorem C7_counterexample :
    u8 (gepC7x.currentData gepC7x.currentPos) = 0xB9 ∧
    u8 (gepC7x.currentData (gepC7x.currentPos + 1)) = 255 ∧
    gepC7x.processCommand = none := by
  refine ⟨by decide, by decide, ?_⟩
  show GEP.processCommand gepC7x = none
  rfl

/-- Witness for C7 (amended) at concrete inputs: the terminating run
with count 3 and the diverging run with count 255. -/
theorem C7_dac_run_witness :
    ((gepC7.currentPos < gepC7.currentDataSize ∨ gepC7.currentDataSize = 0xFFFF) ∧
      u8 (gepC7.currentData gepC7.currentPos) = 0xB9 ∧ (3 : Nat) ≤ 254 ∧
      ∃ s' tr,
        gepC7.processCommand =
          some (((∑ i in Finset.range 3,
                   nibbleWait gepC7.currentData (gepC7.currentPos + 2) i : Nat) : Int),
                s', tr) ∧
        tr.length = 3 ∧ ∀ e ∈ tr, ∃ v, e = Ev.writeDAC v) ∧
    (u8 (gepC7x.currentData (gepC7x.currentPos + 1)) = 255 ∧
      gepC7x.processCommand = none) :=
  ⟨⟨Or.inr rfl, by decide, by decide,
     C7_dac_run.1 gepC7 3 (Or.inr rfl) (by decide) (by decide) (by decide) (by decide)⟩,
   ⟨by decide, C7_dac_run.2 gepC7x (Or.inr rfl) (by decide) (by decide) (by decide)⟩⟩

/-! ## C1 — the wait-consumption DAC stream ignores `sampleEnd_`

`GEPPlayer::triggerSample` stores `sampleEnd_ = start + length`, and the
spec says playback stops when `pcm_pos ≥ sample_end`; but the streaming
block in `GEPPlayer::update` checks only `samplePlaying_ && pcm_`,
never compares `pcmPos_` with `sampleEnd_`, and never clears
`samplePlaying_` (`sampleEnd_` is a dead store; the related
`sampleLastCheck_` field is likewise assigned but never read).  The run
below triggers sample 0 of length 1 (`sampleEnd = 1`): the first tick
emits the single in-range byte and reaches `pcmPos = sampleEnd`, yet
the second tick still emits a wait-time-triggered DAC byte from past
the sample's end, with `samplePlaying` still set. -/

def gepC1 : GEP :=
  { gep0 with state := PState.playing,
              pcm := some (fun i => 10 + i),
              samples := some (fun i => [0, 0, 1, 0, 7].getD i 0),
              sampleCount := 1,
              currentDataSize := 0xFFFF,
              waitSamples := 1000,
              playbackStartTime := 0 }

/-- The state right after the `0xD0`/`0xBB`-style trigger of sample 0
at rate 1. -/
def gepC1s1 : GEP := gepC1.triggerSample 0 1

def gepC1tick1 : GEP × List Ev := (GEP.update 5 gepC1s1 10000).getD (gep0, [])

def gepC1tick2 : GEP × List Ev := (GEP.update 5 gepC1tick1.1 20000).getD (gep0, [])

/-- C1 (code bug): after the triggered sample's single byte has been
emitted and `pcmPos` has reached `sampleEnd`, a further tick still
emits a wait-time-triggered `write_dac` (reading past the sample) and
`samplePlaying` remains set — the code never performs the
`pcm_pos ≥ sample_end` stop required by the spec. -/
theorem C1_sample_end_ignored :
    gepC1s1.sampleEnd = 1 ∧ gepC1s1.pcmPos = 0 ∧ gepC1s1.samplePlaying = true ∧
    GEP.update 5 gepC1s1 10000 = some gepC1tick1 ∧
    gepC1tick1.2 = [Ev.writeDAC 10] ∧
    gepC1tick1.1.pcmPos = 1 ∧ gepC1tick1.1.sampleEnd = 1 ∧
    gepC1tick1.1.samplePlaying = true ∧
    GEP.update 5 gepC1tick1.1 20000 = some gepC1tick2 ∧
    gepC1tick2.2 = [Ev.writeDAC 11] ∧
    gepC1tick2.1.samplePlaying = true :=
  ⟨rfl, rfl, rfl, rfl, rfl, rfl, rfl, rfl, rfl, rfl, rfl⟩

end GenesisVerif
